import Mathlib

/-
Shallow embedding of the RLDP transfer engine (broxus/ton-labs-rldp, src/lib.rs).

Machine integers: the transfer counters (part, seqno_sent, seqno_recv,
confirm_count) are u32/usize in the source; they are modelled as Nat holding
the non-negative machine value, with an explicit `% U32` wherever the source's
u32 arithmetic can wrap (compare-and-set expected value `part - 1`, the window
subtraction `seqno_sent - seqno_recv`, and the `seqno_sent + 1` advance).

External collaborators (the raptorq codec engines, the TL serializer and the
ADNL transport) are not part of the source file; they enter the model as
explicit function parameters (`DecodeFun`, `SourceFun`, `RepairFun`,
`DeserFun`), and replies/packets are returned structurally instead of as
serialized bytes. Transport sends are collected into the node state; the
source's fallible external calls (TL serialization of well-formed envelopes,
datagram sends) are modelled as total.
-/

namespace Rldp

/-- Word size of the u32 counters used by the transfer states. -/
def U32 : Nat := 4294967296

/-- fec.raptorQ parameters (ton_api fec::type_::RaptorQ). -/
structure FecTypeRaptorQ where
  data_size : Nat
  symbol_size : Nat
  symbols_count : Nat
deriving DecidableEq

/-- fec.Type: the RaptorQ alternative used by RLDP, or any other wire
alternative (roundRobin, online) which RLDP rejects. -/
inductive FecType where
  | raptorQ (params : FecTypeRaptorQ)
  | other
deriving DecidableEq

/-- rldp.messagePart envelope. -/
structure MessagePart where
  transfer_id : Nat
  fec_type : FecType
  part : Nat
  total_size : Nat
  seqno : Nat
  data : List Nat
deriving DecidableEq

/-- A reply produced by RecvTransfer.process_chunk: the Complete or Confirm
envelope that the source serializes into the scratch buffer and returns
(the transfer_id of the reply is the transfer's own id). -/
inductive Reply where
  | complete (part : Nat)
  | confirm (part : Nat) (seqno : Nat)
deriving DecidableEq

/-- RaptorqDecoder: `params` and the last observed `seqno` are the source's
fields; the raptorq engine (an external codec) is modelled by the history of
packets fed to it, to be consumed by an abstract decode function. -/
structure RaptorqDecoder where
  fed : List (Nat × List Nat)
  params : FecTypeRaptorQ
  seqno : Nat
deriving DecidableEq

/-- Abstract codec decode: from the decoder construction parameters and the
packets fed so far, optionally the fully reconstructed slice. -/
abbrev DecodeFun := FecTypeRaptorQ → List (Nat × List Nat) → Option (List Nat)

def RaptorqDecoder.with_params (params : FecTypeRaptorQ) : RaptorqDecoder :=
  { fed := [], params := params, seqno := 0 }

/-- RecvTransfer state: the reusable Complete/Confirm envelopes are modelled by
their mutable fields (completePart, confirmPart, confirmSeqno). -/
structure RecvTransfer where
  completePart : Nat
  confirmPart : Nat
  confirmSeqno : Nat
  confirm_count : Nat
  data : List Nat
  decoder : Option RaptorqDecoder
  part : Nat
  total_size : Option Nat
deriving DecidableEq

/-- The decode-and-reply tail of process_chunk (lines 147-172 of the source):
feed the symbol to the decoder, then either append a reconstructed slice and
emit Complete, or count towards the next Confirm. The decoder update is
committed to the state first, as the source mutates the decoder in place. -/
def RecvTransfer.decodeAndReply (dec : DecodeFun) (self : RecvTransfer)
    (decoder : RaptorqDecoder) (total_size : Nat) (message : MessagePart) :
    RecvTransfer × Except String (Option Reply) :=
  let fed := decoder.fed ++ [(message.seqno, message.data)]
  let decoder' : RaptorqDecoder := { decoder with fed := fed, seqno := message.seqno }
  let self := { self with decoder := some decoder' }
  match dec decoder.params fed with
  | some d =>
    if d.length + self.data.length > total_size then
      (self, .error "Too big size for RLDP transfer")
    else
      let self := { self with data := self.data ++ d }
      let self :=
        if self.data.length < total_size then
          { self with decoder := none, part := self.part + 1, confirm_count := 0 }
        else self
      ({ self with completePart := message.part }, .ok (some (Reply.complete message.part)))
  | none =>
    if self.confirm_count = 9 then
      ({ self with confirm_count := 0, confirmPart := message.part, confirmSeqno := message.seqno },
       .ok (some (Reply.confirm message.part message.seqno)))
    else
      ({ self with confirm_count := self.confirm_count + 1 }, .ok none)

/-- process_chunk after the FEC-type and total-size checks (lines 126-146):
dispatch on the presence of a decoder and the part comparison. -/
def RecvTransfer.processChunkSized (dec : DecodeFun) (self : RecvTransfer)
    (message : MessagePart) (fec_type : FecTypeRaptorQ) (total_size : Nat) :
    RecvTransfer × Except String (Option Reply) :=
  match self.decoder with
  | some decoder =>
    if self.part = message.part then
      if fec_type ≠ decoder.params then
        (self, .error "Incorrect parameters in RLDP packet")
      else
        RecvTransfer.decodeAndReply dec self decoder total_size message
    else if message.part < self.part then
      ({ self with completePart := message.part },
       .ok (some (Reply.complete message.part)))
    else
      (self, .ok none)
  | none =>
    RecvTransfer.decodeAndReply dec self (RaptorqDecoder.with_params fec_type)
      total_size message

/-- RecvTransfer::process_chunk (lines 109-173). The pair carries the state
after the call (the source mutates `&mut self` even on error returns) and the
Result value. -/
def RecvTransfer.process_chunk (dec : DecodeFun) (self : RecvTransfer)
    (message : MessagePart) : RecvTransfer × Except String (Option Reply) :=
  match message.fec_type with
  | FecType.other => (self, .error "Unsupported FEC type in RLDP packet")
  | FecType.raptorQ fec_type =>
    match self.total_size with
    | some total_size =>
      if message.total_size ≠ total_size then
        (self, .error "Incorrect total size in RLDP packet")
      else
        RecvTransfer.processChunkSized dec self message fec_type total_size
    | none =>
      RecvTransfer.processChunkSized dec
        { self with total_size := some message.total_size }
        message fec_type message.total_size

/-- True on the Err alternative of a Result. -/
def isErr {α : Type} : Except String α → Bool
  | .error _ => true
  | .ok _ => false

/-- Error condition 1 of process_chunk: the packet's FEC type is not RaptorQ. -/
def fecUnsupported (message : MessagePart) : Bool :=
  match message.fec_type with
  | FecType.raptorQ _ => false
  | FecType.other => true

/-- Error condition 2: a total_size was already recorded and the packet's
total_size differs. -/
def totalMismatch (self : RecvTransfer) (message : MessagePart) : Bool :=
  match self.total_size with
  | some t => decide (message.total_size ≠ t)
  | none => false

/-- Core of error condition 3, with the packet's RaptorQ parameters given. -/
def pmCore (self : RecvTransfer) (message : MessagePart) (p : FecTypeRaptorQ) : Bool :=
  match self.decoder with
  | some d => decide (self.part = message.part) && decide (p ≠ d.params)
  | none => false

/-- Error condition 3: a decoder exists for the same part but was constructed
with different FEC parameters. -/
def paramsMismatch (self : RecvTransfer) (message : MessagePart) : Bool :=
  match message.fec_type with
  | FecType.raptorQ p => pmCore self message p
  | FecType.other => false

/-- Core of error condition 4, with the packet's RaptorQ parameters and the
effective total_size given: the symbol reaches a decoder and the decoded slice
appended to the assembled data would exceed total_size. -/
def ovCore (dec : DecodeFun) (self : RecvTransfer) (message : MessagePart)
    (p : FecTypeRaptorQ) (t : Nat) : Bool :=
  match self.decoder with
  | some d =>
    if self.part = message.part then
      match dec d.params (d.fed ++ [(message.seqno, message.data)]) with
      | some out => decide (out.length + self.data.length > t)
      | none => false
    else false
  | none =>
    match dec p [(message.seqno, message.data)] with
    | some out => decide (out.length + self.data.length > t)
    | none => false

/-- Error condition 4: the symbol reaches the decoder, decodes to a slice, and
appending that slice to the already-assembled data would exceed total_size. -/
def decodeOversize (dec : DecodeFun) (self : RecvTransfer) (message : MessagePart) : Bool :=
  match message.fec_type with
  | FecType.other => false
  | FecType.raptorQ p => ovCore dec self message p (self.total_size.getD message.total_size)

/-- The codec that never reconstructs a slice: every fed symbol is accepted but
no decode completes (used to observe the Confirm cadence). -/
def decNone : DecodeFun := fun _ _ => none

/-- The state after one process_chunk call with the never-decoding codec. -/
def stepNoDecode (message : MessagePart) (st : RecvTransfer) : RecvTransfer :=
  (RecvTransfer.process_chunk decNone st message).1

/-- Number of Confirm replies among the first n process_chunk calls feeding the
same message with the never-decoding codec. -/
def confirmsIn (message : MessagePart) (st : RecvTransfer) : Nat → Nat
  | 0 => 0
  | n + 1 =>
    confirmsIn message st n +
      (match (RecvTransfer.process_chunk decNone ((stepNoDecode message)^[n] st) message).2 with
       | .ok (some (Reply.confirm _ _)) => 1
       | _ => 0)

/-- The state and packet agree so that the symbol is accepted for the current
part: RaptorQ FEC, matching recorded total_size, matching part, and any present
decoder was built with the packet's parameters. -/
def compat (st : RecvTransfer) (message : MessagePart) : Bool :=
  (match message.fec_type, st.decoder with
   | FecType.raptorQ p, some d => decide (d.params = p)
   | FecType.raptorQ _, none => true
   | FecType.other, _ => false) &&
  decide (st.total_size = some message.total_size) &&
  decide (st.part = message.part)

/-- The packets the decoder engine will have been fed after this message. -/
def fedAfter (st : RecvTransfer) (message : MessagePart) : List (Nat × List Nat) :=
  (match st.decoder with
   | some d => d.fed
   | none => []) ++ [(message.seqno, message.data)]

/-- The parameters of the decoder that processes this message: the existing
decoder's if one is present, else the packet's (a fresh decoder is created). -/
def activeParams (st : RecvTransfer) (p : FecTypeRaptorQ) : FecTypeRaptorQ :=
  match st.decoder with
  | some d => d.params
  | none => p

/-- Any present decoder is for the packet's part and parameters (trivial when
no decoder exists: the source then decodes unconditionally). -/
def decoderCompat (st : RecvTransfer) (message : MessagePart) (p : FecTypeRaptorQ) : Bool :=
  match st.decoder with
  | some d => decide (st.part = message.part) && decide (d.params = p)
  | none => true

/-- SendTransfer::SLICE. -/
def SLICE : Nat := 2000000

/-- SendTransfer::SYMBOL. -/
def SYMBOL : Nat := 768

/-- SendTransfer::WINDOW. -/
def WINDOW : Nat := 1000

/-- An encoding packet as produced by the raptorq engine: its encoding symbol
id and its data. -/
structure EncPacket where
  id : Nat
  data : List Nat
deriving DecidableEq

/-- Abstract codec source-symbol generation: the pre-materialized list of
systematic packets over a slice, in the order RaptorqEncoder::with_data leaves
them to be popped (the source reverses each block's list so that Vec::pop
yields them in forward order; the head of this list is popped first). -/
abbrev SourceFun := List Nat → List EncPacket

/-- Abstract codec repair-packet generation: from the current sub-block index
and the offered seqno, the repair packet (the raptorq engine always yields the
requested packet, so the source's internal-error branch is unreachable). -/
abbrev RepairFun := Nat → Nat → EncPacket

/-- RaptorqEncoder: the engine is modelled by its pre-materialized source
packets, the round-robin sub-block index and the number of sub-blocks. -/
structure RaptorqEncoder where
  encoder_index : Nat
  blocks : Nat
  params : FecTypeRaptorQ
  source_packets : List EncPacket
deriving DecidableEq

/-- RaptorqEncoder::with_data (lines 200-220). -/
def RaptorqEncoder.with_data (sourcePackets : SourceFun) (blocksOf : List Nat → Nat)
    (data : List Nat) : RaptorqEncoder :=
  { encoder_index := 0
    blocks := blocksOf data
    params := { data_size := data.length, symbol_size := SYMBOL,
                symbols_count := (sourcePackets data).length }
    source_packets := sourcePackets data }

/-- RaptorqEncoder::encode (lines 223-242): pop the next source packet, or
request one repair packet from the current sub-block and advance the
round-robin index. The returned packet's id is what the source writes back
through the `&mut seqno` argument. -/
def RaptorqEncoder.encode (repair : RepairFun) (self : RaptorqEncoder) (seqno : Nat) :
    RaptorqEncoder × EncPacket :=
  match self.source_packets with
  | packet :: rest => ({ self with source_packets := rest }, packet)
  | [] =>
    let packet := repair self.encoder_index seqno
    let i := self.encoder_index + 1
    ({ self with encoder_index := if self.blocks ≤ i then 0 else i }, packet)

/-- SendTransferState: the four atomics, observed sequentially. -/
structure SendTransferState where
  part : Nat
  reply : Bool
  seqno_sent : Nat
  seqno_recv : Nat
deriving DecidableEq

/-- SendTransferState::set_part (lines 391-395): compare-and-set from
`part - 1` (u32 arithmetic, so the expected value wraps when the argument
is 0) to `part`. -/
def SendTransferState.set_part (self : SendTransferState) (part : Nat) : SendTransferState :=
  if self.part = (part + U32 - 1) % U32 then { self with part := part } else self

/-- SendTransferState::set_seqno_recv (lines 401-413). -/
def SendTransferState.set_seqno_recv (self : SendTransferState) (seqno : Nat) :
    SendTransferState :=
  if seqno ≤ self.seqno_sent then
    if self.seqno_recv < seqno then { self with seqno_recv := seqno } else self
  else self

/-- SendTransferState::set_seqno_sent (lines 415-425). -/
def SendTransferState.set_seqno_sent (self : SendTransferState) (seqno : Nat) :
    SendTransferState :=
  if self.seqno_sent < seqno then { self with seqno_sent := seqno } else self

/-- SendTransfer: the immutable source message, the per-part encoder, the
reusable MessagePart envelope and the shared counter state. -/
structure SendTransfer where
  data : List Nat
  encoder : Option RaptorqEncoder
  message : MessagePart
  state : SendTransferState
deriving DecidableEq

/-- SendTransfer::is_finished (lines 293-296). -/
def SendTransfer.is_finished (self : SendTransfer) : Bool :=
  self.state.reply && decide (self.data.length ≤ (self.state.part + 1) * SLICE)

/-- SendTransfer::prepare_chunk (lines 317-337): encode the next packet at the
current seqno_sent, write seqno and data into the envelope, and advance
seqno_sent only while the window (u32 subtraction against seqno_recv) is not
exceeded. The serialized envelope is returned structurally. -/
def SendTransfer.prepare_chunk (repair : RepairFun) (self : SendTransfer) :
    Except String (SendTransfer × MessagePart) :=
  match self.encoder with
  | none => .error "Encoder is not ready"
  | some encoder =>
    let seqno_sent_original := self.state.seqno_sent
    let r := encoder.encode repair seqno_sent_original
    let seqno_sent := r.2.id
    let message := { self.message with seqno := seqno_sent, data := r.2.data }
    let seqno_recv := self.state.seqno_recv
    let state :=
      if (seqno_sent + U32 - seqno_recv) % U32 ≤ WINDOW then
        self.state.set_seqno_sent
          (if seqno_sent_original = seqno_sent then (seqno_sent + 1) % U32 else seqno_sent)
      else self.state
    .ok ({ self with encoder := some r.1, message := message, state := state }, message)

/-- SendTransfer::start_next_part (lines 339-364). -/
def SendTransfer.start_next_part (sourcePackets : SourceFun) (blocksOf : List Nat → Nat)
    (self : SendTransfer) : Except String (SendTransfer × Nat) :=
  if self.is_finished then .ok (self, 0)
  else
    let part := self.state.part
    let processed := part * SLICE
    let total := self.data.length
    if total ≤ processed then .ok (self, 0)
    else
      let chunk_size := min (total - processed) SLICE
      let encoder := RaptorqEncoder.with_data sourcePackets blocksOf
        ((self.data.drop processed).take chunk_size)
      let ret := encoder.params.symbols_count
      match self.message.fec_type with
      | FecType.raptorQ fec =>
        .ok ({ self with
               encoder := some encoder
               message := { self.message with
                 part := part
                 total_size := total
                 fec_type := FecType.raptorQ
                   { fec with data_size := encoder.params.data_size, symbols_count := ret } } },
             ret)
      | FecType.other => .error "INTERNAL ERROR: unsupported FEC type"

/-- A boxed rldp.MessagePart envelope as delivered to try_consume_custom. -/
inductive RldpMessagePartBoxed where
  | messagePart (msg : MessagePart)
  | confirm (transfer_id : Nat) (part : Nat) (seqno : Nat)
  | complete (transfer_id : Nat) (part : Nat)
deriving DecidableEq

/-- A registry entry (enum RldpTransfer): a receive queue, a shared send-state
handle, or Done. -/
inductive RldpTransfer where
  | recv (queue : List MessagePart)
  | send (state : SendTransferState)
  | done
deriving DecidableEq

/-- A Confirm or Complete envelope sent back through the transport by the
dispatcher. -/
inductive OutMsg where
  | confirm (transfer_id : Nat) (part : Nat) (seqno : Nat)
  | complete (transfer_id : Nat) (part : Nat)
deriving DecidableEq

/-- The node's registry (transfer id to entry) and the datagrams it has sent
through the transport. -/
structure NodeState where
  transfers : List (Nat × RldpTransfer)
  sent : List OutMsg
deriving DecidableEq

/-- Abstract TL deserialization of an inbound datagram: the composition of
`deserialize` and the downcast to RldpMessagePartBoxed, which yields either a
boxed envelope or nothing. -/
abbrev DeserFun := List Nat → Option RldpMessagePartBoxed

/-- Registry lookup by transfer id. -/
def lookupTransfer : List (Nat × RldpTransfer) → Nat → Option RldpTransfer
  | [], _ => none
  | (k, v) :: rest, id => if k = id then some v else lookupTransfer rest id

/-- Registry in-place entry update (the source mutates through the map's
shared references). -/
def updateTransfer : List (Nat × RldpTransfer) → Nat → RldpTransfer → List (Nat × RldpTransfer)
  | [], _, _ => []
  | (k, v) :: rest, id, nv =>
    if k = id then (k, nv) :: rest else (k, v) :: updateTransfer rest id nv

/-- RldpNode::try_consume_custom (lines 932-1002). Inputs that do not
deserialize as a boxed envelope return false untouched; otherwise the envelope
is dispatched and true is returned. A MessagePart for an unknown id takes the
answer_transfer path, which inserts a Recv entry and enqueues the packet (the
source's retry loop re-runs the lookup only when the entry was inserted
concurrently, which the sequential model folds away). -/
def try_consume_custom (deser : DeserFun) (node : NodeState) (data : List Nat) :
    NodeState × Bool :=
  match deser data with
  | none => (node, false)
  | some (RldpMessagePartBoxed.complete tid part) =>
    (match lookupTransfer node.transfers tid with
     | some (RldpTransfer.send st) =>
       let e := RldpTransfer.send (st.set_part ((part + 1) % U32))
       { node with transfers := updateTransfer node.transfers tid e }
     | _ => node,
     true)
  | some (RldpMessagePartBoxed.confirm tid part seqno) =>
    (match lookupTransfer node.transfers tid with
     | some (RldpTransfer.send st) =>
       if st.part = part then
         let e := RldpTransfer.send (st.set_seqno_recv seqno)
         { node with transfers := updateTransfer node.transfers tid e }
       else node
     | _ => node,
     true)
  | some (RldpMessagePartBoxed.messagePart m) =>
    (match lookupTransfer node.transfers m.transfer_id with
     | some (RldpTransfer.recv q) =>
       let e := RldpTransfer.recv (q ++ [m])
       { node with transfers := updateTransfer node.transfers m.transfer_id e }
     | some _ =>
       let out := [OutMsg.confirm m.transfer_id m.part m.seqno,
                   OutMsg.complete m.transfer_id m.part]
       { node with sent := node.sent ++ out }
     | none =>
       { node with transfers := node.transfers ++ [(m.transfer_id, RldpTransfer.recv [m])] },
     true)

/-- The answer size gate of answer_transfer_loop (lines 569-572): once the
subscriber has produced an Answer, the path fails exactly on
answer.data.len() > query.max_answer_size; the comparison happens before the
Answer is serialized and compares the data field's length. On success the
path proceeds to serialize the answer and run the send transfer. -/
def answer_transfer_gate (answerData : List Nat) (max_answer_size : Nat) :
    Except String (List Nat) :=
  if max_answer_size < answerData.length then .error "Exceeded max RLDP answer size"
  else .ok answerData

/-- Modelled from the spec: the wire serialization of the Answer envelope.
The serializer is an external collaborator absent from src/; section 6 fixes
it as the ambient TL scheme over the field layout of section 3, so a
serialized Answer is a 4-byte constructor tag, the 32-byte query_id, and the
TL framing of the data bytes (one length byte plus padding to a 4-byte
boundary for payloads up to 253 bytes, a 4-byte length header otherwise). -/
def serialized_answer_size (dataLen : Nat) : Nat :=
  4 + 32 + (if dataLen ≤ 253 then ((dataLen + 1 + 3) / 4) * 4 else ((dataLen + 4 + 3) / 4) * 4)

/-- The slice start_next_part encodes next:
data[processed .. processed + min(SLICE, data.len() - processed)]. -/
def nextSlice (self : SendTransfer) : List Nat :=
  (self.data.drop (self.state.part * SLICE)).take
    (min (self.data.length - self.state.part * SLICE) SLICE)

/-- The send transfer after start_next_part has begun a new slice: the fresh
encoder over the slice, and the envelope updated with the part index, the
total size and the slice's FEC parameters. -/
def nextPartState (sourcePackets : SourceFun) (blocksOf : List Nat → Nat)
    (self : SendTransfer) (f : FecTypeRaptorQ) : SendTransfer :=
  let encoder := RaptorqEncoder.with_data sourcePackets blocksOf (nextSlice self)
  let fec := FecType.raptorQ
    { f with data_size := encoder.params.data_size, symbols_count := encoder.params.symbols_count }
  let message := { self.message with part := self.state.part, total_size := self.data.length, fec_type := fec }
  { self with encoder := some encoder, message := message }

/-- Transfer state of a prepare_chunk result, with a default for the Err case. -/
def pcStateOr (dflt : SendTransfer) (r : Except String (SendTransfer × MessagePart)) :
    SendTransfer :=
  match r with
  | .ok (s, _) => s
  | .error _ => dflt

/-- Emitted seqno of a prepare_chunk result (0 for the Err case). -/
def pcSeqnoOr (r : Except String (SendTransfer × MessagePart)) : Nat :=
  match r with
  | .ok (_, pk) => pk.seqno
  | .error _ => 0

/-- RaptorQ parameters used by the concrete instances below. -/
def pX : FecTypeRaptorQ := { data_size := 5, symbol_size := 768, symbols_count := 1 }

/-- Receive state with no decoder, already past part 0. -/
def stNoDec : RecvTransfer :=
  { completePart := 0, confirmPart := 0, confirmSeqno := 0, confirm_count := 0,
    data := [], decoder := none, part := 1, total_size := some 100 }

/-- A stale packet (part 0) for the transfer above. -/
def mStale : MessagePart :=
  { transfer_id := 0, fec_type := FecType.raptorQ pX, part := 0, total_size := 100,
    seqno := 3, data := [9] }

/-- A decoder built from pX with no symbols fed. -/
def dX : RaptorqDecoder := { fed := [], params := pX, seqno := 0 }

/-- Receive state holding a decoder, at part 2. -/
def stWithDec : RecvTransfer := { stNoDec with decoder := some dX, part := 2 }

/-- A packet below the current part of stWithDec. -/
def mBelow : MessagePart := { mStale with part := 1 }

/-- A packet above the current part of stWithDec. -/
def mAbove : MessagePart := { mStale with part := 3 }

/-- A fresh receive state at part 0. -/
def stFresh : RecvTransfer := { stNoDec with part := 0 }

/-- A packet for part 0 of stFresh. -/
def mCur : MessagePart := mStale

/-- Receive state with two bytes assembled out of four. -/
def stPartial : RecvTransfer :=
  { completePart := 0, confirmPart := 0, confirmSeqno := 0, confirm_count := 3,
    data := [1, 2], decoder := none, part := 0, total_size := some 4 }

/-- The packet whose decode completes stPartial. -/
def mFinal : MessagePart :=
  { transfer_id := 0, fec_type := FecType.raptorQ pX, part := 0, total_size := 4,
    seqno := 5, data := [7] }

/-- A codec whose decode always reconstructs the two-byte slice [8, 8]. -/
def decTwo : DecodeFun := fun _ _ => some [8, 8]

/-- An encoder mid-part: two source symbols left, ids 1001 and 1002. -/
def encA : RaptorqEncoder :=
  { encoder_index := 0, blocks := 1, params := pX,
    source_packets := [{ id := 1001, data := [1] }, { id := 1002, data := [2] }] }

/-- A repair generator issuing the offered seqno as the packet id. -/
def rpA : RepairFun := fun _ s => { id := s, data := [0] }

/-- A send transfer whose window is full: seqno_sent 1001, seqno_recv 0. -/
def sndA : SendTransfer :=
  { data := List.replicate 20 7, encoder := some encA,
    message := { transfer_id := 5, fec_type := FecType.raptorQ pX, part := 0,
                 total_size := 20, seqno := 0, data := [] },
    state := { part := 0, reply := false, seqno_sent := 1001, seqno_recv := 0 } }

/-- sndA after one prepare_chunk call. -/
def sndA1 : SendTransfer := pcStateOr sndA (SendTransfer.prepare_chunk rpA sndA)

/-- A one-packet-per-slice source generator (never empty on any slice). -/
def spC : SourceFun := fun l => [{ id := 0, data := l }]

/-- A one-block engine shape. -/
def boC : List Nat → Nat := fun _ => 1

/-- A finished send transfer (reply seen, single short slice) at part 0. -/
def snd3 : SendTransfer :=
  { data := [0], encoder := none,
    message := { transfer_id := 5, fec_type := FecType.raptorQ pX, part := 0,
                 total_size := 0, seqno := 0, data := [] },
    state := { part := 0, reply := true, seqno_sent := 0, seqno_recv := 0 } }

/-- An unfinished send transfer with three bytes to send. -/
def snd4 : SendTransfer := { snd3 with data := [1, 2, 3], state := { snd3.state with reply := false } }

/-- A send counter state at part 5. -/
def stSend : SendTransferState := { part := 5, reply := false, seqno_sent := 0, seqno_recv := 0 }

/-- A registry holding stSend under id 7. -/
def nodeSend : NodeState := { transfers := [(7, RldpTransfer.send stSend)], sent := [] }

/-- Deserialization that always yields Complete(7, part 5). -/
def deserComplete : DeserFun := fun _ => some (RldpMessagePartBoxed.complete 7 5)

/-- Deserialization that always fails. -/
def deserNone : DeserFun := fun _ => none

/-- C5: for every send-transfer counter state, set_seqno_recv only raises
seqno_recv, and only to a value at most min(seqno_sent, the Confirm's seqno);
set_seqno_sent only raises seqno_sent; neither setter touches the other
counter, and each of the state's operations preserves seqno_recv ≤ seqno_sent. -/
theorem send_state_seqno_invariants (st : SendTransferState) (s : Nat) :
    st.seqno_recv ≤ (st.set_seqno_recv s).seqno_recv ∧
    (st.set_seqno_recv s).seqno_recv ≤ max st.seqno_recv (min st.seqno_sent s) ∧
    st.seqno_sent ≤ (st.set_seqno_sent s).seqno_sent ∧
    (st.set_seqno_recv s).seqno_sent = st.seqno_sent ∧
    (st.set_seqno_sent s).seqno_recv = st.seqno_recv ∧
    (st.seqno_recv ≤ st.seqno_sent →
      (st.set_seqno_recv s).seqno_recv ≤ (st.set_seqno_recv s).seqno_sent ∧
      (st.set_seqno_sent s).seqno_recv ≤ (st.set_seqno_sent s).seqno_sent ∧
      (st.set_part s).seqno_recv ≤ (st.set_part s).seqno_sent) := by
  unfold SendTransferState.set_seqno_recv SendTransferState.set_seqno_sent
    SendTransferState.set_part
  split_ifs <;> simp_all <;> omega

/-- C5 witness: a concrete Confirm at seqno 5 against counters sent 7, recv 3. -/
theorem send_state_seqno_invariants_instance :
    (SendTransferState.set_seqno_recv ⟨0, false, 7, 3⟩ 5).seqno_recv ≤
      (SendTransferState.set_seqno_recv ⟨0, false, 7, 3⟩ 5).seqno_sent :=
  ((send_state_seqno_invariants ⟨0, false, 7, 3⟩ 5).2.2.2.2.2 (by decide)).1

/-- C6: a Complete carrying part p against a Send registry entry advances the
entry's part from p to p + 1 by compare-and-set; replaying any number of such
Completes advances part by at most one in total (exactly one application when
the current part is p, none otherwise). -/
theorem complete_advances_part_idempotent (st : SendTransferState) (p : Nat)
    (deser : DeserFun) (node : NodeState) (bytes : List Nat) (tid : Nat)
    (hp : p + 1 < U32) :
    (st.part = p → ∀ n, 1 ≤ n →
      (fun s => SendTransferState.set_part s (p + 1))^[n] st = { st with part := p + 1 }) ∧
    (st.part ≠ p → ∀ n,
      (fun s => SendTransferState.set_part s (p + 1))^[n] st = st) ∧
    (deser bytes = some (RldpMessagePartBoxed.complete tid p) →
      lookupTransfer node.transfers tid = some (RldpTransfer.send st) →
      try_consume_custom deser node bytes =
        ({ node with transfers := updateTransfer node.transfers tid (RldpTransfer.send (st.set_part ((p + 1) % U32))) }, true)) := by
  have hexp : (p + 1 + U32 - 1) % U32 = p := by
    have h1 : p + 1 + U32 - 1 = p + U32 := by omega
    rw [h1, Nat.add_mod_right, Nat.mod_eq_of_lt (by omega)]
  have hstep_eq : ∀ s : SendTransferState, s.part = p →
      s.set_part (p + 1) = { s with part := p + 1 } := by
    intro s hs
    unfold SendTransferState.set_part
    rw [hexp, if_pos hs]
  have hstep_ne : ∀ s : SendTransferState, s.part ≠ p → s.set_part (p + 1) = s := by
    intro s hs
    unfold SendTransferState.set_part
    rw [hexp, if_neg hs]
  refine ⟨?_, ?_, ?_⟩
  · intro hpart n hn
    induction n with
    | zero => omega
    | succ k ih =>
      rcases Nat.eq_zero_or_pos k with hk | hk
      · subst hk
        rw [Function.iterate_one]
        exact hstep_eq st hpart
      · rw [Function.iterate_succ_apply', ih hk, hstep_ne _ (by simp)]
  · intro hpart n
    induction n with
    | zero => rfl
    | succ k ih =>
      rw [Function.iterate_succ_apply', ih, hstep_ne st hpart]
  · intro hdes hlook
    simp only [try_consume_custom, hdes, hlook]

/-- C6 witness: three replayed Completes for part 5 against a registry entry at
part 5 move it to part 6 once; the dispatcher applies exactly this CAS. -/
theorem complete_advances_part_idempotent_instance :
    ((fun s => SendTransferState.set_part s 6)^[3] stSend = { stSend with part := 6 }) ∧
    try_consume_custom deserComplete nodeSend [] =
      ({ nodeSend with transfers := updateTransfer nodeSend.transfers 7 (RldpTransfer.send (stSend.set_part (6 % U32))) }, true) :=
  ⟨(complete_advances_part_idempotent stSend 5 deserComplete nodeSend [] 7
      (by decide)).1 rfl 3 (by decide),
   (complete_advances_part_idempotent stSend 5 deserComplete nodeSend [] 7
      (by decide)).2.2 rfl rfl⟩

/-- C8 counterexample: with answer data of length 4 and max_answer_size 10 the
answer path does not fail, although the serialized Answer envelope (44 bytes
under the TL layout of the spec) exceeds max_answer_size; the size the gate
compares is therefore not the serialized Answer's size. -/
theorem answer_gate_serialized_size_counterexample :
    answer_transfer_gate [1, 2, 3, 4] 10 = .ok [1, 2, 3, 4] ∧
    10 < serialized_answer_size (List.length [1, 2, 3, 4]) := by
  exact ⟨rfl, by decide⟩

/-- C8 (amended): the answer path fails exactly when the Answer's data length
exceeds the Query's max_answer_size; the comparison happens before
serialization and is on answer.data.len(), not on the serialized envelope. -/
theorem answer_gate_fails_iff_data_len (answerData : List Nat) (m : Nat) :
    isErr (answer_transfer_gate answerData m) = decide (m < answerData.length) := by
  unfold answer_transfer_gate
  split_ifs with h <;> simp [isErr, h]

/-- C10: try_consume_custom returns false and leaves the node untouched on
every input that does not deserialize as a boxed RLDP envelope, and returns
true on every input that does. -/
theorem try_consume_custom_deser_total (deser : DeserFun) (node : NodeState)
    (bytes : List Nat) :
    (deser bytes = none → try_consume_custom deser node bytes = (node, false)) ∧
    (∀ m, deser bytes = some m → (try_consume_custom deser node bytes).2 = true) := by
  constructor
  · intro h
    unfold try_consume_custom
    rw [h]
  · intro m h
    unfold try_consume_custom
    rw [h]
    cases m <;> rfl

/-- C10 witness: a non-deserializing input is refused with the registry intact;
a deserializing Complete is consumed. -/
theorem try_consume_custom_deser_total_instance :
    try_consume_custom deserNone nodeSend [] = (nodeSend, false) ∧
    (try_consume_custom deserComplete nodeSend []).2 = true :=
  ⟨(try_consume_custom_deser_total deserNone nodeSend []).1 rfl,
   (try_consume_custom_deser_total deserComplete nodeSend []).2
     (RldpMessagePartBoxed.complete 7 5) rfl⟩

/-- C1 counterexample: in a state with no decoder, a RaptorQ packet with
matching total_size and msg.part (0) below the current part (1) does not make
process_chunk emit a Complete: the reply is none and the decoder field is
changed (a fresh decoder is created and fed), refuting the claim's coverage of
states in which no decoder currently exists. -/
theorem process_chunk_stale_part_no_decoder_counterexample :
    mStale.part < stNoDec.part ∧ stNoDec.decoder = none ∧
    stNoDec.total_size = some mStale.total_size ∧
    (RecvTransfer.process_chunk decNone stNoDec mStale).2 = .ok none ∧
    (RecvTransfer.process_chunk decNone stNoDec mStale).1.decoder ≠ none := by
  refine ⟨by decide, rfl, rfl, rfl, by decide⟩

/-- C1 (amended): provided a decoder currently exists, process_chunk on a
RaptorQ packet with matching total_size compares msg.part to the current part:
below the current part it emits a Complete for msg.part and returns it (only
the reusable Complete envelope is touched); above the current part it returns
no reply and leaves the state completely unchanged. When no decoder exists the
part comparison is skipped and a fresh decoder is created from the packet. -/
theorem process_chunk_part_compare_with_decoder (dec : DecodeFun) (st : RecvTransfer)
    (m : MessagePart) (p : FecTypeRaptorQ) (d : RaptorqDecoder)
    (hd : st.decoder = some d) (hf : m.fec_type = FecType.raptorQ p)
    (ht : st.total_size = some m.total_size) :
    (m.part < st.part →
      RecvTransfer.process_chunk dec st m =
        ({ st with completePart := m.part }, .ok (some (Reply.complete m.part)))) ∧
    (st.part < m.part → RecvTransfer.process_chunk dec st m = (st, .ok none)) := by
  constructor
  · intro hlt
    have hne : ¬ st.part = m.part := by omega
    simp [RecvTransfer.process_chunk, hf, ht, RecvTransfer.processChunkSized, hd, hne, hlt]
  · intro hgt
    have hne : ¬ st.part = m.part := by omega
    have hnlt : ¬ m.part < st.part := by omega
    simp [RecvTransfer.process_chunk, hf, ht, RecvTransfer.processChunkSized, hd, hne, hnlt]

/-- C1 witness: with a decoder present at part 2, a part-1 packet yields a
Complete for part 1, and a part-3 packet yields no reply and no state change. -/
theorem process_chunk_part_compare_with_decoder_instance :
    RecvTransfer.process_chunk decNone stWithDec mBelow =
      ({ stWithDec with completePart := 1 }, .ok (some (Reply.complete 1))) ∧
    RecvTransfer.process_chunk decNone stWithDec mAbove = (stWithDec, .ok none) :=
  ⟨(process_chunk_part_compare_with_decoder decNone stWithDec mBelow pX dX
      rfl rfl rfl).1 (by decide),
   (process_chunk_part_compare_with_decoder decNone stWithDec mAbove pX dX
      rfl rfl rfl).2 (by decide)⟩

/-- C9: when a process_chunk call decodes a slice whose append makes the
assembled data reach total_size, the call emits a Complete for the packet's
part, appends the slice, and leaves part, confirm_count and total_size
unchanged with the decoder still present (not dropped). -/
theorem process_chunk_completion_frame (dec : DecodeFun) (st : RecvTransfer)
    (m : MessagePart) (p : FecTypeRaptorQ) (out : List Nat)
    (hf : m.fec_type = FecType.raptorQ p)
    (ht : st.total_size = some m.total_size)
    (hdc : decoderCompat st m p = true)
    (hdec : dec (activeParams st p) (fedAfter st m) = some out)
    (hfit : st.data.length + out.length = m.total_size) :
    (RecvTransfer.process_chunk dec st m).2 = .ok (some (Reply.complete m.part)) ∧
    (RecvTransfer.process_chunk dec st m).1.part = st.part ∧
    (RecvTransfer.process_chunk dec st m).1.confirm_count = st.confirm_count ∧
    (RecvTransfer.process_chunk dec st m).1.total_size = st.total_size ∧
    (RecvTransfer.process_chunk dec st m).1.decoder ≠ none ∧
    (RecvTransfer.process_chunk dec st m).1.data = st.data ++ out := by
  cases hd : st.decoder with
  | none =>
    simp only [activeParams, fedAfter, hd, List.nil_append] at hdec
    have hnb : ¬ (out.length + st.data.length > m.total_size) := by omega
    have hnl : ¬ (st.data.length + out.length < m.total_size) := by omega
    simp [RecvTransfer.process_chunk, hf, ht, RecvTransfer.processChunkSized, hd,
          RecvTransfer.decodeAndReply, RaptorqDecoder.with_params, hdec, hnb,
          List.length_append, hnl, hfit]
  | some d =>
    simp only [decoderCompat, hd, Bool.and_eq_true, decide_eq_true_eq] at hdc
    obtain ⟨hpe, hpp⟩ := hdc
    simp only [activeParams, fedAfter, hd] at hdec
    have hnp : ¬ (p ≠ d.params) := by simp [hpp]
    have hnb : ¬ (out.length + st.data.length > m.total_size) := by omega
    have hnl : ¬ (st.data.length + out.length < m.total_size) := by omega
    simp [RecvTransfer.process_chunk, hf, ht, RecvTransfer.processChunkSized, hd,
          hpe, hnp, RecvTransfer.decodeAndReply, hdec, hnb,
          List.length_append, hnl, hfit]

/-- C9 witness: a two-byte decode completes a four-byte transfer assembled to
two bytes; Complete is emitted while part, confirm_count, total_size and the
decoder presence are untouched. -/
theorem process_chunk_completion_frame_instance :
    (RecvTransfer.process_chunk decTwo stPartial mFinal).2 =
      .ok (some (Reply.complete mFinal.part)) ∧
    (RecvTransfer.process_chunk decTwo stPartial mFinal).1.part = stPartial.part ∧
    (RecvTransfer.process_chunk decTwo stPartial mFinal).1.confirm_count =
      stPartial.confirm_count ∧
    (RecvTransfer.process_chunk decTwo stPartial mFinal).1.total_size =
      stPartial.total_size ∧
    (RecvTransfer.process_chunk decTwo stPartial mFinal).1.decoder ≠ none ∧
    (RecvTransfer.process_chunk decTwo stPartial mFinal).1.data =
      stPartial.data ++ [8, 8] :=
  process_chunk_completion_frame decTwo stPartial mFinal pX [8, 8]
    rfl rfl (by decide) rfl (by decide)

/-- C2 counterexample: two consecutive prepare_chunk calls under a full window
(seqno_sent 1001, seqno_recv 0, source symbols 1001 and 1002 remaining) both
leave seqno_sent at 1001 but emit packets with DIFFERENT symbol ids (1001 then
1002): the packet under a full window does not carry the same symbol id as the
previous emission while source symbols remain. -/
theorem prepare_chunk_window_full_fresh_ids_counterexample :
    pcSeqnoOr (SendTransfer.prepare_chunk rpA sndA) = 1001 ∧
    sndA1.state = sndA.state ∧
    WINDOW < pcSeqnoOr (SendTransfer.prepare_chunk rpA sndA) - sndA.state.seqno_recv ∧
    WINDOW < pcSeqnoOr (SendTransfer.prepare_chunk rpA sndA1) - sndA1.state.seqno_recv ∧
    pcSeqnoOr (SendTransfer.prepare_chunk rpA sndA1) = 1002 ∧
    (pcStateOr sndA (SendTransfer.prepare_chunk rpA sndA1)).state.seqno_sent = 1001 := by
  refine ⟨rfl, rfl, by decide, by decide, rfl, rfl⟩

/-- C2 (amended): with an encoder present, whenever the sending window is full
(the emitted packet's symbol id minus seqno_recv, in u32 arithmetic, exceeds
WINDOW = 1000), prepare_chunk still returns a serialized packet carrying the
id the encoder chose for the stuck seqno_sent, but leaves the counter state
(in particular seqno_sent) unchanged, so the same seqno_sent keeps being
offered to the encoder until a Confirm raises seqno_recv; the emitted id
itself repeats only once source symbols are exhausted, since each call pops a
fresh source symbol. -/
theorem prepare_chunk_window_full_no_advance (repair : RepairFun) (self : SendTransfer)
    (enc : RaptorqEncoder) (he : self.encoder = some enc)
    (hw : WINDOW <
      ((enc.encode repair self.state.seqno_sent).2.id + U32 - self.state.seqno_recv) % U32) :
    SendTransfer.prepare_chunk repair self =
      .ok ({ self with encoder := some (enc.encode repair self.state.seqno_sent).1, message := { self.message with seqno := (enc.encode repair self.state.seqno_sent).2.id, data := (enc.encode repair self.state.seqno_sent).2.data } },
           { self.message with seqno := (enc.encode repair self.state.seqno_sent).2.id, data := (enc.encode repair self.state.seqno_sent).2.data }) ∧
    (∀ st' pk, SendTransfer.prepare_chunk repair self = .ok (st', pk) →
      st'.state = self.state ∧
      pk.seqno = (enc.encode repair self.state.seqno_sent).2.id) := by
  have hcond : ¬ (((enc.encode repair self.state.seqno_sent).2.id + U32 -
      self.state.seqno_recv) % U32 ≤ WINDOW) := by omega
  have hmain : SendTransfer.prepare_chunk repair self =
      .ok ({ self with encoder := some (enc.encode repair self.state.seqno_sent).1, message := { self.message with seqno := (enc.encode repair self.state.seqno_sent).2.id, data := (enc.encode repair self.state.seqno_sent).2.data } },
           { self.message with seqno := (enc.encode repair self.state.seqno_sent).2.id, data := (enc.encode repair self.state.seqno_sent).2.data }) := by
    simp only [SendTransfer.prepare_chunk, he, hcond, if_false]
  refine ⟨hmain, ?_⟩
  intro st' pk hok
  rw [hmain] at hok
  injection hok with h1
  injection h1 with h2 h3
  subst h2
  subst h3
  exact ⟨rfl, rfl⟩

/-- C2 witness: the window-full transfer sndA emits the popped source symbol
(id 1001) without touching its counters. -/
theorem prepare_chunk_window_full_no_advance_instance :
    SendTransfer.prepare_chunk rpA sndA =
      .ok ({ sndA with encoder := some (encA.encode rpA sndA.state.seqno_sent).1, message := { sndA.message with seqno := (encA.encode rpA sndA.state.seqno_sent).2.id, data := (encA.encode rpA sndA.state.seqno_sent).2.data } },
           { sndA.message with seqno := (encA.encode rpA sndA.state.seqno_sent).2.id, data := (encA.encode rpA sndA.state.seqno_sent).2.data }) :=
  (prepare_chunk_window_full_no_advance rpA sndA encA rfl (by decide)).1

/-- C3 counterexample: a send transfer whose reply flag is set with a one-byte
message returns 0 from start_next_part although processed = part * SLICE = 0
is strictly below data.len() = 1: the is_finished short-circuit makes
"returns 0 exactly when processed ≥ data.len()" false. -/
theorem start_next_part_zero_when_finished_counterexample :
    SendTransfer.start_next_part spC boC snd3 = .ok (snd3, 0) ∧
    snd3.state.part * SLICE < snd3.data.length := by
  refine ⟨rfl, by decide⟩

/-- C3 (amended): start_next_part returns 0 exactly when the transfer is
finished (reply observed and all slices covered) or processed = part * SLICE
is at least data.len(); otherwise it constructs a new encoder over
data[processed .. processed + min(SLICE, data.len() - processed)], writes the
slice's data_size and symbols_count plus the part index and total_size into
the MessagePart envelope, and returns the encoder's symbols_count (the number
of source packets the codec materializes over the slice, which is nonzero for
a codec that yields at least one source symbol on any nonempty slice). -/
theorem start_next_part_returns (sourcePackets : SourceFun) (blocksOf : List Nat → Nat)
    (self : SendTransfer) (f : FecTypeRaptorQ)
    (hfec : self.message.fec_type = FecType.raptorQ f)
    (hsp : ∀ l : List Nat, l ≠ [] → sourcePackets l ≠ []) :
    (SendTransfer.start_next_part sourcePackets blocksOf self = .ok (self, 0) ↔
      (self.is_finished = true ∨ self.data.length ≤ self.state.part * SLICE)) ∧
    (self.is_finished = false → self.state.part * SLICE < self.data.length →
      SendTransfer.start_next_part sourcePackets blocksOf self =
        .ok (nextPartState sourcePackets blocksOf self f,
             (sourcePackets (nextSlice self)).length)) := by
  by_cases hfin : self.is_finished = true
  · have h0 : SendTransfer.start_next_part sourcePackets blocksOf self = .ok (self, 0) := by
      simp only [SendTransfer.start_next_part, hfin, if_true]
    constructor
    · exact ⟨fun _ => Or.inl hfin, fun _ => h0⟩
    · intro hnf
      rw [hfin] at hnf
      exact absurd hnf (by simp)
  · have hfin' : self.is_finished = false := by
      cases h : self.is_finished
      · rfl
      · exact absurd h hfin
    by_cases hproc : self.data.length ≤ self.state.part * SLICE
    · have h0 : SendTransfer.start_next_part sourcePackets blocksOf self = .ok (self, 0) := by
        simp only [SendTransfer.start_next_part, hfin', Bool.false_eq_true, if_false, hproc,
          if_true]
      exact ⟨⟨fun _ => Or.inr hproc, fun _ => h0⟩, fun _ h => absurd h (by omega)⟩
    · have hlt : self.state.part * SLICE < self.data.length := by omega
      have hslice : nextSlice self ≠ [] := by
        have hlen : (nextSlice self).length =
            min (self.data.length - self.state.part * SLICE) SLICE := by
          simp only [nextSlice, List.length_take, List.length_drop]
          omega
        intro hnil
        rw [hnil] at hlen
        simp only [List.length_nil] at hlen
        have hS : (0 : Nat) < SLICE := by decide
        omega
      have hret : (sourcePackets (nextSlice self)).length ≠ 0 := by
        intro h0
        exact hsp _ hslice (List.eq_nil_of_length_eq_zero h0)
      have hmain : SendTransfer.start_next_part sourcePackets blocksOf self =
          .ok (nextPartState sourcePackets blocksOf self f,
               (sourcePackets (nextSlice self)).length) := by
        simp only [SendTransfer.start_next_part, hfin', Bool.false_eq_true, if_false, hproc,
          hfec, nextPartState, nextSlice, RaptorqEncoder.with_data]
      refine ⟨⟨?_, ?_⟩, fun _ _ => hmain⟩
      · intro h
        rw [hmain] at h
        injection h with h1
        injection h1 with h2 h3
        exact absurd h3 hret
      · intro h
        rcases h with h | h
        · exact absurd h hfin
        · omega

/-- The decode tail errs exactly when the decoded slice would overflow the
effective total size. -/
theorem decodeAndReply_isErr (dec : DecodeFun) (self : RecvTransfer) (d : RaptorqDecoder)
    (t : Nat) (m : MessagePart) :
    isErr (RecvTransfer.decodeAndReply dec self d t m).2 =
      (match dec d.params (d.fed ++ [(m.seqno, m.data)]) with
       | some out => decide (out.length + self.data.length > t)
       | none => false) := by
  cases hdc : dec d.params (d.fed ++ [(m.seqno, m.data)]) with
  | none =>
    simp only [RecvTransfer.decodeAndReply, hdc]
    split <;> rfl
  | some out =>
    simp only [RecvTransfer.decodeAndReply, hdc]
    by_cases hov : out.length + self.data.length > t
    · simp [hov, isErr]
    · simp [hov, isErr]

/-- processChunkSized errs exactly on a parameter mismatch or a decode
overflow. -/
theorem processChunkSized_isErr (dec : DecodeFun) (self : RecvTransfer) (m : MessagePart)
    (p : FecTypeRaptorQ) (t : Nat) :
    isErr (RecvTransfer.processChunkSized dec self m p t).2 =
      (pmCore self m p || ovCore dec self m p t) := by
  cases hd : self.decoder with
  | none =>
    have h := decodeAndReply_isErr dec self (RaptorqDecoder.with_params p) t m
    simp only [RecvTransfer.processChunkSized, hd]
    rw [h]
    simp only [RaptorqDecoder.with_params, List.nil_append, pmCore, ovCore, hd, Bool.false_or]
  | some d =>
    by_cases hpe : self.part = m.part
    · by_cases hpp : p = d.params
      · have h := decodeAndReply_isErr dec self d t m
        simp [RecvTransfer.processChunkSized, hd, hpe, hpp, pmCore, ovCore, h]
      · simp [RecvTransfer.processChunkSized, hd, hpe, hpp, pmCore, ovCore, isErr]
    · simp only [RecvTransfer.processChunkSized, hd, hpe, if_false]
      split <;> simp [pmCore, ovCore, hd, hpe, isErr]

/-- C4: process_chunk returns an error if and only if the packet's FEC type is
not RaptorQ, or a recorded total_size differs from the packet's, or a decoder
for the same part was built with different FEC parameters, or the decoded
slice appended to the assembled data would exceed total_size; in every other
case it returns Ok. -/
theorem process_chunk_error_iff (dec : DecodeFun) (st : RecvTransfer) (m : MessagePart) :
    isErr (RecvTransfer.process_chunk dec st m).2 =
      (fecUnsupported m || totalMismatch st m || paramsMismatch st m ||
       decodeOversize dec st m) := by
  cases hf : m.fec_type with
  | other =>
    simp [RecvTransfer.process_chunk, hf, fecUnsupported, isErr]
  | raptorQ p =>
    cases ht : st.total_size with
    | none =>
      have h := processChunkSized_isErr dec { st with total_size := some m.total_size }
        m p m.total_size
      simp only [RecvTransfer.process_chunk, hf, ht, h]
      simp [fecUnsupported, totalMismatch, ht, paramsMismatch, decodeOversize, hf,
        pmCore, ovCore]
    | some t =>
      by_cases he : m.total_size = t
      · have h := processChunkSized_isErr dec st m p t
        simp only [RecvTransfer.process_chunk, hf, ht]
        rw [if_neg (by simp [he])]
        simp [h, fecUnsupported, totalMismatch, ht, he, paramsMismatch, decodeOversize, hf]
      · simp only [RecvTransfer.process_chunk, hf, ht]
        rw [if_pos (by simp [he])]
        simp [isErr, fecUnsupported, totalMismatch, ht, he]

/-- confirm_count stays at most 9 across the decode tail. -/
theorem decodeAndReply_cc_le (dec : DecodeFun) (self : RecvTransfer) (d : RaptorqDecoder)
    (t : Nat) (m : MessagePart) (hle : self.confirm_count ≤ 9) :
    (RecvTransfer.decodeAndReply dec self d t m).1.confirm_count ≤ 9 := by
  cases hdc : dec d.params (d.fed ++ [(m.seqno, m.data)]) with
  | some out =>
    simp only [RecvTransfer.decodeAndReply, hdc]
    split
    · exact hle
    · split
      · exact Nat.zero_le 9
      · exact hle
  | none =>
    simp only [RecvTransfer.decodeAndReply, hdc]
    split
    · exact Nat.zero_le 9
    · rename_i h9
      show self.confirm_count + 1 ≤ 9
      omega

/-- confirm_count stays at most 9 across processChunkSized. -/
theorem processChunkSized_cc_le (dec : DecodeFun) (self : RecvTransfer) (m : MessagePart)
    (p : FecTypeRaptorQ) (t : Nat) (hle : self.confirm_count ≤ 9) :
    (RecvTransfer.processChunkSized dec self m p t).1.confirm_count ≤ 9 := by
  unfold RecvTransfer.processChunkSized
  cases self.decoder with
  | some d =>
    dsimp only
    split
    · split
      · exact hle
      · exact decodeAndReply_cc_le dec self d t m hle
    · split
      · exact hle
      · exact hle
  | none =>
    exact decodeAndReply_cc_le dec self (RaptorqDecoder.with_params p) t m hle

/-- With the never-decoding codec and a compatible accepted symbol,
process_chunk replies Confirm exactly when confirm_count is 9 (with the
message's part and seqno), resets or increments the counter accordingly, and
keeps the state compatible with a decoder holding the message's seqno. -/
theorem step_no_decode_spec (st : RecvTransfer) (m : MessagePart)
    (h : compat st m = true) :
    (RecvTransfer.process_chunk decNone st m).2 =
      .ok (if st.confirm_count = 9 then some (Reply.confirm m.part m.seqno) else none) ∧
    (stepNoDecode m st).confirm_count =
      (if st.confirm_count = 9 then 0 else st.confirm_count + 1) ∧
    compat (stepNoDecode m st) m = true ∧
    (∃ d', (stepNoDecode m st).decoder = some d' ∧ d'.seqno = m.seqno) := by
  cases hf : m.fec_type with
  | other => simp [compat, hf] at h
  | raptorQ p =>
    cases hd : st.decoder with
    | none =>
      simp only [compat, hf, hd, Bool.true_and, Bool.and_eq_true, decide_eq_true_eq] at h
      obtain ⟨hts, hpt⟩ := h
      by_cases h9 : st.confirm_count = 9 <;>
        simp [RecvTransfer.process_chunk, hf, hts, RecvTransfer.processChunkSized, hd,
          RecvTransfer.decodeAndReply, RaptorqDecoder.with_params, decNone, stepNoDecode,
          h9, compat, hpt]
    | some d =>
      simp only [compat, hf, hd, Bool.and_eq_true, decide_eq_true_eq] at h
      obtain ⟨⟨hdp, hts⟩, hpt⟩ := h
      have hnp : ¬ (p ≠ d.params) := by simp [hdp]
      by_cases h9 : st.confirm_count = 9 <;>
        simp [RecvTransfer.process_chunk, hf, hts, RecvTransfer.processChunkSized, hd,
          hpt, hnp, RecvTransfer.decodeAndReply, decNone, stepNoDecode, h9, compat, hdp]

/-- Iterating compatible never-decoding symbols from confirm_count 0: the
counter follows n mod 10 and exactly one Confirm is emitted per 10 symbols. -/
theorem run_no_decode (st : RecvTransfer) (m : MessagePart)
    (h : compat st m = true) (h0 : st.confirm_count = 0) (n : Nat) :
    compat ((stepNoDecode m)^[n] st) m = true ∧
    ((stepNoDecode m)^[n] st).confirm_count = n % 10 ∧
    confirmsIn m st n = n / 10 := by
  induction n with
  | zero =>
    refine ⟨h, ?_, rfl⟩
    simpa using h0
  | succ k ih =>
    obtain ⟨hc, hcc, hcf⟩ := ih
    obtain ⟨hrep, hccs, hcomp, -⟩ := step_no_decode_spec ((stepNoDecode m)^[k] st) m hc
    rw [hcc] at hrep hccs
    refine ⟨?_, ?_, ?_⟩
    · rw [Function.iterate_succ_apply']
      exact hcomp
    · rw [Function.iterate_succ_apply', hccs]
      by_cases h9 : k % 10 = 9
      · rw [if_pos h9]
        omega
      · rw [if_neg h9]
        omega
    · show confirmsIn m st k +
        (match (RecvTransfer.process_chunk decNone ((stepNoDecode m)^[k] st) m).2 with
         | .ok (some (Reply.confirm _ _)) => 1
         | _ => 0) = (k + 1) / 10
      rw [hrep, hcf]
      by_cases h9 : k % 10 = 9
      · rw [if_pos h9]
        show k / 10 + 1 = (k + 1) / 10
        omega
      · rw [if_neg h9]
        show k / 10 + 0 = (k + 1) / 10
        omega

/-- C7: confirm_count always stays within 0..9; for an accepted symbol of the
current part that does not complete the slice, the call replies Confirm
(carrying the message's part and the decoder's last observed seqno, which is
the message's seqno) exactly when confirm_count has reached 9, and replies
nothing otherwise; iterating such symbols from a zero counter emits exactly
one Confirm per 10 symbols. -/
theorem confirm_cadence (dec : DecodeFun) (st : RecvTransfer) (m : MessagePart) :
    (st.confirm_count ≤ 9 →
      (RecvTransfer.process_chunk dec st m).1.confirm_count ≤ 9) ∧
    (compat st m = true →
      (RecvTransfer.process_chunk decNone st m).2 =
        .ok (if st.confirm_count = 9 then some (Reply.confirm m.part m.seqno) else none) ∧
      (∃ d', (stepNoDecode m st).decoder = some d' ∧ d'.seqno = m.seqno)) ∧
    (compat st m = true → st.confirm_count = 0 →
      ∀ n, confirmsIn m st n = n / 10 ∧
        ((stepNoDecode m)^[n] st).confirm_count = n % 10) := by
  refine ⟨?_, ?_, ?_⟩
  · intro hle
    unfold RecvTransfer.process_chunk
    cases m.fec_type with
    | other => exact hle
    | raptorQ p =>
      dsimp only
      cases st.total_size with
      | some t =>
        dsimp only
        split
        · exact hle
        · exact processChunkSized_cc_le dec st m p t hle
      | none =>
        exact processChunkSized_cc_le dec _ m p m.total_size hle
  · intro hc
    obtain ⟨h1, -, -, h4⟩ := step_no_decode_spec st m hc
    exact ⟨h1, h4⟩
  · intro hc h0 n
    obtain ⟨-, h2, h3⟩ := run_no_decode st m hc h0 n
    exact ⟨h3, h2⟩

/-- C7 witness: 25 accepted non-completing symbols on a fresh transfer yield
exactly two Confirms with the counter at 5, and the tenth call's reply carries
the message's part and seqno. -/
theorem confirm_cadence_instance :
    compat stFresh mCur = true ∧
    confirmsIn mCur stFresh 25 = 2 ∧
    ((stepNoDecode mCur)^[25] stFresh).confirm_count = 5 ∧
    (RecvTransfer.process_chunk decNone ((stepNoDecode mCur)^[9] stFresh) mCur).2 =
      .ok (some (Reply.confirm mCur.part mCur.seqno)) := by
  have h25 := (confirm_cadence decNone stFresh mCur).2.2 (by decide) (by decide) 25
  have h9c : compat ((stepNoDecode mCur)^[9] stFresh) mCur = true := by decide
  have h9 := ((confirm_cadence decNone ((stepNoDecode mCur)^[9] stFresh) mCur).2.1 h9c).1
  refine ⟨by decide, h25.1, h25.2, ?_⟩
  rw [h9]
  have : ((stepNoDecode mCur)^[9] stFresh).confirm_count = 9 := by decide
  rw [if_pos this]

/-- C3 witness: the finished transfer snd3 returns 0 though a byte remains
unprocessed, and the unfinished snd4 starts its single slice, setting the
envelope and returning its one source symbol. -/
theorem start_next_part_returns_instance :
    SendTransfer.start_next_part spC boC snd3 = .ok (snd3, 0) ∧
    SendTransfer.start_next_part spC boC snd4 =
      .ok (nextPartState spC boC snd4 pX, (spC (nextSlice snd4)).length) :=
  ⟨(start_next_part_returns spC boC snd3 pX rfl
      (fun l _ => by simp [spC])).1.mpr (Or.inl rfl),
   (start_next_part_returns spC boC snd4 pX rfl
      (fun l _ => by simp [spC])).2 rfl (by decide)⟩

end Rldp
